import Mathlib

/-! Shallow embedding of the polyjuice `sign-tx` and `build-tx` subcommands
(src/src/main.rs).  Witness payloads are byte lists (`List Nat`, one entry
per byte); the external collaborators — the molecule codec for
`WitnessArgs` envelopes, the blake2b-256 hash and the secp256k1 signer —
are parameters of the embedded protocol, so every theorem below holds for
any implementation of those collaborators. -/

namespace Polyjuice

/-- Outcome of a run of the `sign-tx` code path: `crash` models a Rust
panic (an out-of-bounds slice), `fail` models an early `Err` return from
`main`, `ok` a successful run. -/
inductive RunResult (α : Type) where
  | crash : RunResult α
  | fail : String → RunResult α
  | ok : α → RunResult α
deriving Repr, DecidableEq

/-- Decoded form of a ckb `WitnessArgs` envelope: one primary field
(`lock`) and two optional fields (`input_type`, `output_type`), each an
optional byte string. -/
structure WitnessArgs where
  lock : Option (List Nat)
  input_type : Option (List Nat)
  output_type : Option (List Nat)
deriving Repr, DecidableEq

/-- Embeds `raw_witness[4..4 + 65].copy_from_slice(&s)`: it succeeds
exactly when the slice `[4,69)` is in bounds and `s` has length 65,
otherwise the Rust code panics (`none`). -/
def writeSig (p s : List Nat) : Option (List Nat) :=
  if 4 + 65 ≤ p.length ∧ s.length = 65 then
    some (p.take 4 ++ s ++ p.drop (4 + 65))
  else none

/-- Embeds `raw_witness[4..4 + 65].copy_from_slice(&[0u8; 65][..])`, the
zeroing of the signature slice on a private copy of the entrance payload
(main.rs lines 247-249 and 265-267). -/
def zeroSig (p : List Nat) : Option (List Nat) :=
  writeSig p (List.replicate 65 0)

/-- Propagation of the three outcomes: a panic or an `Err` return aborts
the rest of the computation (Rust `?`), a success feeds the next step. -/
def RunResult.bind {α β : Type} : RunResult α → (α → RunResult β) → RunResult β
  | .crash, _ => .crash
  | .fail e, _ => .fail e
  | .ok a, f => f a

@[simp] theorem RunResult.bind_ok {α β : Type} (a : α) (f : α → RunResult β) :
    RunResult.bind (.ok a) f = f a := rfl

@[simp] theorem RunResult.bind_fail {α β : Type} (e : String) (f : α → RunResult β) :
    RunResult.bind (.fail e) f = .fail e := rfl

@[simp] theorem RunResult.bind_crash {α β : Type} (f : α → RunResult β) :
    RunResult.bind (.crash) f = .crash := rfl

/-- Mutable state of the phase-1 loops of `sign-tx`: `entrance_witness`,
`unsigned_data` and `output_witnesses` (main.rs lines 233-236). -/
structure P1State where
  entrance : Option (WitnessArgs × List Nat)
  unsigned : List Nat
  outputs : List (Nat × WitnessArgs × List Nat)
deriving Repr, DecidableEq

/-- Body of the first `for (idx, witness)` loop of `sign-tx` (main.rs
lines 237-261): decode the witness, handle an `input_type` payload
(zeroing the signature slice of a private copy when `idx == 0`),
otherwise push an `output_type` payload onto `output_witnesses`. -/
def step1 (d : List Nat → Except String WitnessArgs) (st : P1State)
    (iw : Nat × List Nat) : RunResult P1State :=
  match d iw.2 with
  | .error e => .fail e
  | .ok args =>
    match args.input_type with
    | some raw =>
      if iw.1 = 0 then
        match zeroSig raw with
        | none => .crash
        | some z =>
          .ok { st with entrance := some (args, raw), unsigned := st.unsigned ++ z }
      else .ok { st with unsigned := st.unsigned ++ raw }
    | none =>
      match args.output_type with
      | some raw => .ok { st with outputs := st.outputs ++ [(iw.1, args, raw)] }
      | none => .ok st

/-- Body of the second `for (idx, witness_args, raw_witness)` loop of
`sign-tx` (main.rs lines 262-272). -/
def step2 (st : P1State) (x : Nat × WitnessArgs × List Nat) : RunResult P1State :=
  if x.1 = 0 then
    match zeroSig x.2.2 with
    | none => .crash
    | some z =>
      .ok { st with entrance := some (x.2.1, x.2.2), unsigned := st.unsigned ++ z }
  else .ok { st with unsigned := st.unsigned ++ x.2.2 }

/-- Runs `step1` over the enumerated witness list. -/
def loop1 (d : List Nat → Except String WitnessArgs) :
    P1State → List (Nat × List Nat) → RunResult P1State
  | st, [] => .ok st
  | st, iw :: rest =>
    match step1 d st iw with
    | .crash => .crash
    | .fail e => .fail e
    | .ok st' => loop1 d st' rest

/-- Runs `step2` over the collected `output_witnesses`. -/
def loop2 : P1State → List (Nat × WitnessArgs × List Nat) → RunResult P1State
  | st, [] => .ok st
  | st, x :: rest =>
    match step2 st x with
    | .crash => .crash
    | .fail e => .fail e
    | .ok st' => loop2 st' rest

/-- Phase 1 of `sign-tx` (main.rs lines 232-275): build `unsigned_data`
starting from the transaction hash and find the entrance witness.
Returns the unsigned message, the entrance `WitnessArgs` and the
original (unzeroed) entrance payload. -/
def buildUnsigned (d : List Nat → Except String WitnessArgs)
    (txh : List Nat) (ws : List (List Nat)) :
    RunResult (List Nat × WitnessArgs × List Nat) :=
  RunResult.bind (loop1 d ⟨none, txh, []⟩ (List.enumFrom 0 ws)) fun st1 =>
  RunResult.bind (loop2 st1 st1.outputs) fun st2 =>
  match st2.entrance with
  | none => .fail "No entrance witness found"
  | some ew => .ok (st2.unsigned, ew.1, ew.2)

/-- Embeds `secp256k1::Message::from_slice(&blake2b_256(&unsigned_data)[..])`
(main.rs lines 276-277): the digest is the 256-bit hash of the unsigned
message, and `from_slice` only accepts a 32-byte digest. -/
def mkDigest (hash : List Nat → List Nat) (u : List Nat) : RunResult (List Nat) :=
  if (hash u).length = 32 then .ok (hash u) else .fail "message of invalid length"

/-- Digest actually handed to the signer for a given receipt. -/
def signedDigest (d : List Nat → Except String WitnessArgs)
    (hash : List Nat → List Nat) (txh : List Nat) (ws : List (List Nat)) :
    RunResult (List Nat) :=
  RunResult.bind (buildUnsigned d txh ws) fun x => mkDigest hash x.1

/-- Unsigned message (`unsigned_data`) built by phase 1. -/
def unsignedMessage (d : List Nat → Except String WitnessArgs)
    (txh : List Nat) (ws : List (List Nat)) : RunResult (List Nat) :=
  RunResult.bind (buildUnsigned d txh ws) fun x => .ok x.1

/-- Embeds main.rs lines 280-284: the signer returns the 64-byte compact
signature and the recovery id, combined into the 65-byte `signature_bytes`
(the recovery id is cast to `u8`). -/
def sigBytes (sign : List Nat → List Nat × Nat) (dg : List Nat) : List Nat :=
  (sign dg).1 ++ [(sign dg).2 % 256]

/-- Phases 1-3 of `sign-tx` except the final receipt mutation (main.rs
lines 232-296): build the digest, sign it, overwrite the signature slice
of the original entrance payload and re-wrap it into the envelope, the
output side taking priority (main.rs lines 292-296). -/
def signTxCore (d : List Nat → Except String WitnessArgs)
    (hash : List Nat → List Nat) (sign : List Nat → List Nat × Nat)
    (txh : List Nat) (ws : List (List Nat)) : RunResult WitnessArgs :=
  RunResult.bind (buildUnsigned d txh ws) fun x =>
  RunResult.bind (mkDigest hash x.1) fun dg =>
  match writeSig x.2.2 (sigBytes sign dg) with
  | none => .crash
  | some raw2 =>
    .ok (if x.2.1.output_type.isSome
         then { x.2.1 with output_type := some raw2 }
         else { x.2.1 with input_type := some raw2 })

/-- Whole `sign-tx` signing run over the receipt's witness list; the
receipt is mutated (witness 0 replaced by the re-encoded envelope,
main.rs line 298) only after every previous step succeeded. -/
def signTxRun (d : List Nat → Except String WitnessArgs)
    (enc : WitnessArgs → List Nat) (hash : List Nat → List Nat)
    (sign : List Nat → List Nat × Nat) (txh : List Nat)
    (ws : List (List Nat)) : RunResult Unit × List (List Nat) :=
  match signTxCore d hash sign txh ws with
  | .crash => (.crash, ws)
  | .fail e => (.fail e, ws)
  | .ok w => (.ok (), ws.set 0 (enc w))

/-- Signature handling of the `build-tx` subcommand (main.rs lines
358-370): an absent argument yields 65 zero bytes, a supplied argument
must decode to exactly 65 bytes. -/
def buildTxSignature (arg : Option (List Nat)) : Except String (List Nat) :=
  match arg with
  | some data =>
    if data.length ≠ 65 then
      .error ("Invalid data length for signature: " ++ toString data.length)
    else .ok data
  | none => .ok (List.replicate 65 0)

/-- Payload with its signature slice `[4,69)` replaced by 65 zero bytes. -/
def zeroedBytes (p : List Nat) : List Nat :=
  p.take 4 ++ List.replicate 65 0 ++ p.drop (4 + 65)

/-- Decode every witness of the list (order preserving, first error wins). -/
def decodeAll (d : List Nat → Except String WitnessArgs) :
    List (List Nat) → Except String (List WitnessArgs)
  | [] => .ok []
  | w :: rest =>
    match d w with
    | .error e => .error e
    | .ok a =>
      match decodeAll d rest with
      | .error e => .error e
      | .ok ds => .ok (a :: ds)

/-- Concatenation of all input-side payloads, in list order. -/
def inputsJoin (ds : List WitnessArgs) : List Nat :=
  (ds.filterMap fun a => a.input_type).flatten

/-- Output-side payload of an envelope that carries no input-side payload. -/
def outputsOnly (a : WitnessArgs) : Option (List Nat) :=
  match a.input_type with
  | some _ => none
  | none => a.output_type

/-- Concatenation of all output-side payloads of input-less envelopes. -/
def outputsJoin (ds : List WitnessArgs) : List Nat :=
  (ds.filterMap outputsOnly).flatten

/-- Expected `output_witnesses` entries for envelopes numbered from `n`. -/
def outputsEnum (n : Nat) : List WitnessArgs → List (Nat × WitnessArgs × List Nat)
  | [] => []
  | a :: rest =>
    (match outputsOnly a with
     | some r => [(n, a, r)]
     | none => []) ++ outputsEnum (n + 1) rest

/-- Input-side payloads in ascending index order starting at `n`, the
index-0 payload taken with its signature slice zeroed. -/
def inputsPartFrom : Nat → List WitnessArgs → List Nat
  | _, [] => []
  | n, a :: rest =>
    (match a.input_type with
     | some r => if n = 0 then zeroedBytes r else r
     | none => []) ++ inputsPartFrom (n + 1) rest

/-- Output-side payloads of input-less envelopes in ascending index order
starting at `n`, the index-0 payload taken with its signature slice
zeroed. -/
def outputsPartFrom : Nat → List WitnessArgs → List Nat
  | _, [] => []
  | n, a :: rest =>
    (match outputsOnly a with
     | some r => if n = 0 then zeroedBytes r else r
     | none => []) ++ outputsPartFrom (n + 1) rest

/-- Toy instantiation of the external `WitnessArgs` codec, used to run the
protocol on concrete inputs. -/
def toyDecode : List Nat → Except String WitnessArgs
  | [] => .ok ⟨none, none, none⟩
  | 0 :: rest => .ok ⟨none, some rest, none⟩
  | 1 :: rest => .ok ⟨none, none, some rest⟩
  | _ => .error "invalid witness"

/-- Toy instantiation of the external `WitnessArgs` encoder. -/
def toyEnc : WitnessArgs → List Nat := fun _ => []

/-- Concrete 32-byte transaction hash. -/
def cexTxHash : List Nat := List.replicate 32 0

/-- Concrete 69-byte entrance payload with a non-zero signature slice. -/
def cexP0 : List Nat := List.replicate 69 1

/-- Concrete 32-byte-output hash function. -/
def cexHashFn : List Nat → List Nat :=
  fun m => (m.drop 32).take 32 ++ List.replicate (32 - ((m.drop 32).take 32).length) 0

/-- Concrete signer: constant 64-byte compact signature and recovery id. -/
def cexSign : List Nat → List Nat × Nat := fun _ => (List.replicate 64 3, 1)

/-- Concrete input-side payload for the both-fields counterexample. -/
def cexPIn : List Nat := List.replicate 69 1

/-- Concrete output-side payload for the both-fields counterexample. -/
def cexPOut : List Nat := List.replicate 69 2

/-- Toy codec whose single envelope carries both optional fields. -/
def cexBothDecode : List Nat → Except String WitnessArgs :=
  fun _ => .ok ⟨none, some cexPIn, some cexPOut⟩

/-- Concrete entrance envelope with an input-side payload only. -/
def cexA0 : WitnessArgs := ⟨none, some cexP0, none⟩

/-! Helper lemmas about the phase-1 loops. -/

/-- Zeroing the signature slice succeeds on payloads of at least 69 bytes
and yields the payload with bytes `[4,69)` replaced by zeros. -/
theorem zeroSig_of_long {p : List Nat} (h : 69 ≤ p.length) :
    zeroSig p = some (zeroedBytes p) := by
  rw [zeroSig, writeSig, zeroedBytes,
    if_pos (⟨by omega, by simp⟩ : 4 + 65 ≤ p.length ∧ (List.replicate 65 0).length = 65)]

/-- Zeroing the signature slice of a payload shorter than 69 bytes models
an out-of-bounds slice panic. -/
theorem zeroSig_of_short {p : List Nat} (h : p.length < 69) :
    zeroSig p = none := by
  rw [zeroSig, writeSig, if_neg]
  rintro ⟨h1, -⟩
  omega

/-- Reduction of `loop1` on a cons cell whose step succeeds. -/
theorem loop1_cons_ok {d : List Nat → Except String WitnessArgs}
    {st st' : P1State} {iw : Nat × List Nat}
    (h : step1 d st iw = .ok st') (rest : List (Nat × List Nat)) :
    loop1 d st (iw :: rest) = loop1 d st' rest := by
  rw [loop1, h]

/-- Reduction of `loop1` on a cons cell whose step fails. -/
theorem loop1_cons_fail {d : List Nat → Except String WitnessArgs}
    {st : P1State} {iw : Nat × List Nat} {e : String}
    (h : step1 d st iw = .fail e) (rest : List (Nat × List Nat)) :
    loop1 d st (iw :: rest) = .fail e := by
  rw [loop1, h]

/-- Reduction of `loop1` on a cons cell whose step panics. -/
theorem loop1_cons_crash {d : List Nat → Except String WitnessArgs}
    {st : P1State} {iw : Nat × List Nat}
    (h : step1 d st iw = .crash) (rest : List (Nat × List Nat)) :
    loop1 d st (iw :: rest) = .crash := by
  rw [loop1, h]

/-- Reduction of `loop2` on a cons cell whose step succeeds. -/
theorem loop2_cons_ok {st st' : P1State} {x : Nat × WitnessArgs × List Nat}
    (h : step2 st x = .ok st') (rest : List (Nat × WitnessArgs × List Nat)) :
    loop2 st (x :: rest) = loop2 st' rest := by
  rw [loop2, h]

/-- Reduction of `loop2` on a cons cell whose step panics. -/
theorem loop2_cons_crash {st : P1State} {x : Nat × WitnessArgs × List Nat}
    (h : step2 st x = .crash) (rest : List (Nat × WitnessArgs × List Nat)) :
    loop2 st (x :: rest) = .crash := by
  rw [loop2, h]

/-- Inversion of `decodeAll` on a cons cell. -/
theorem decodeAll_cons_ok {d : List Nat → Except String WitnessArgs}
    {w : List Nat} {rest : List (List Nat)} {ds : List WitnessArgs}
    (h : decodeAll d (w :: rest) = .ok ds) :
    ∃ a ds', d w = .ok a ∧ decodeAll d rest = .ok ds' ∧ ds = a :: ds' := by
  rw [decodeAll] at h
  cases hdw : d w with
  | error e => rw [hdw] at h; exact absurd h (by simp)
  | ok a =>
    rw [hdw] at h
    cases hdr : decodeAll d rest with
    | error e => rw [hdr] at h; exact absurd h (by simp)
    | ok ds' =>
      rw [hdr] at h
      exact ⟨a, ds', rfl, rfl, by injection h with h'; exact h'.symm⟩

/-- Running the first loop over witnesses numbered from `n ≥ 1`, when all
of them decode, appends the input-side payloads to `unsigned_data`,
appends the output-side entries to `output_witnesses`, and leaves the
entrance unchanged. -/
theorem loop1_tail (d : List Nat → Except String WitnessArgs)
    (ws : List (List Nat)) :
    ∀ (n : Nat) (st : P1State) (ds : List WitnessArgs), 1 ≤ n →
      decodeAll d ws = .ok ds →
      loop1 d st (List.enumFrom n ws) =
        .ok ⟨st.entrance, st.unsigned ++ inputsJoin ds,
             st.outputs ++ outputsEnum n ds⟩ := by
  induction ws with
  | nil =>
    intro n st ds _ hds
    rw [decodeAll] at hds
    injection hds with h
    subst h
    simp [List.enumFrom, loop1, inputsJoin, outputsEnum]
  | cons w rest ih =>
    intro n st ds hn hds
    obtain ⟨a, ds', hdw, hdr, hcons⟩ := decodeAll_cons_ok hds
    subst hcons
    have hn0 : n ≠ 0 := by omega
    rw [show List.enumFrom n (w :: rest) = (n, w) :: List.enumFrom (n + 1) rest from rfl]
    cases hin : a.input_type with
    | some r =>
      have hstep : step1 d st (n, w) = .ok { st with unsigned := st.unsigned ++ r } := by
        simp [step1, hdw, hin, hn0]
      rw [loop1_cons_ok hstep]
      rw [ih (n + 1) _ ds' (by omega) hdr]
      simp [inputsJoin, outputsEnum, outputsOnly, hin, List.append_assoc]
    | none =>
      cases hout : a.output_type with
      | some r =>
        have hstep : step1 d st (n, w) =
            .ok { st with outputs := st.outputs ++ [(n, a, r)] } := by
          simp [step1, hdw, hin, hout]
        rw [loop1_cons_ok hstep]
        rw [ih (n + 1) _ ds' (by omega) hdr]
        simp [inputsJoin, outputsEnum, outputsOnly, hin, hout, List.append_assoc]
      | none =>
        have hstep : step1 d st (n, w) = .ok st := by
          simp [step1, hdw, hin, hout]
        rw [loop1_cons_ok hstep]
        rw [ih (n + 1) _ ds' (by omega) hdr]
        simp [inputsJoin, outputsEnum, outputsOnly, hin, hout]

/-- Running the second loop over the expected output entries of envelopes
numbered from `n ≥ 1` appends their payloads to `unsigned_data` and leaves
the entrance and the outputs unchanged. -/
theorem loop2_outputs (ds : List WitnessArgs) :
    ∀ (n : Nat) (st : P1State), 1 ≤ n →
      loop2 st (outputsEnum n ds) =
        .ok ⟨st.entrance, st.unsigned ++ outputsJoin ds, st.outputs⟩ := by
  induction ds with
  | nil =>
    intro n st _
    simp [outputsEnum, loop2, outputsJoin]
  | cons a rest ih =>
    intro n st hn
    have hn0 : n ≠ 0 := by omega
    cases hoo : outputsOnly a with
    | some r =>
      rw [show outputsEnum n (a :: rest) = (n, a, r) :: outputsEnum (n + 1) rest from by
        simp [outputsEnum, hoo]]
      have hstep : step2 st (n, a, r) = .ok { st with unsigned := st.unsigned ++ r } := by
        simp [step2, hn0]
      rw [loop2_cons_ok hstep]
      rw [ih (n + 1) _ (by omega)]
      simp [outputsJoin, hoo, List.append_assoc]
    | none =>
      rw [show outputsEnum n (a :: rest) = outputsEnum (n + 1) rest from by
        simp [outputsEnum, hoo]]
      rw [ih (n + 1) _ (by omega)]
      simp [outputsJoin, hoo]

/-- Phase 1 with an input-side entrance: the unsigned message is the
transaction hash, then the zeroed entrance payload, then all other
input-side payloads in index order, then all output-side payloads in
index order. -/
theorem buildUnsigned_input_entrance
    {d : List Nat → Except String WitnessArgs} {txh w0 : List Nat}
    {rest : List (List Nat)} {a0 : WitnessArgs} {p0 : List Nat}
    {ds : List WitnessArgs}
    (h0 : d w0 = .ok a0) (h1 : a0.input_type = some p0)
    (h2 : 69 ≤ p0.length) (h3 : decodeAll d rest = .ok ds) :
    buildUnsigned d txh (w0 :: rest) =
      .ok (txh ++ zeroedBytes p0 ++ inputsJoin ds ++ outputsJoin ds, a0, p0) := by
  have hstep : step1 d ⟨none, txh, []⟩ (0, w0) =
      .ok ⟨some (a0, p0), txh ++ zeroedBytes p0, []⟩ := by
    simp [step1, h0, h1, zeroSig_of_long h2]
  rw [buildUnsigned,
    show List.enumFrom 0 (w0 :: rest) = (0, w0) :: List.enumFrom 1 rest from rfl,
    loop1_cons_ok hstep, loop1_tail d rest 1 _ ds (by omega) h3]
  simp only [RunResult.bind_ok, List.nil_append]
  rw [loop2_outputs ds 1 _ (by omega)]
  simp [List.append_assoc]

/-- Phase 1 with an output-side entrance: the unsigned message is the
transaction hash, then all input-side payloads in index order, then the
zeroed entrance payload, then the other output-side payloads in index
order. -/
theorem buildUnsigned_output_entrance
    {d : List Nat → Except String WitnessArgs} {txh w0 : List Nat}
    {rest : List (List Nat)} {a0 : WitnessArgs} {p0 : List Nat}
    {ds : List WitnessArgs}
    (h0 : d w0 = .ok a0) (h1 : a0.input_type = none)
    (h1' : a0.output_type = some p0)
    (h2 : 69 ≤ p0.length) (h3 : decodeAll d rest = .ok ds) :
    buildUnsigned d txh (w0 :: rest) =
      .ok (txh ++ inputsJoin ds ++ zeroedBytes p0 ++ outputsJoin ds, a0, p0) := by
  have hstep : step1 d ⟨none, txh, []⟩ (0, w0) =
      .ok ⟨none, txh, [(0, a0, p0)]⟩ := by
    simp [step1, h0, h1, h1']
  rw [buildUnsigned,
    show List.enumFrom 0 (w0 :: rest) = (0, w0) :: List.enumFrom 1 rest from rfl,
    loop1_cons_ok hstep, loop1_tail d rest 1 _ ds (by omega) h3]
  simp only [RunResult.bind_ok]
  have hstep2 : step2 ⟨none, txh ++ inputsJoin ds, (0, a0, p0) :: outputsEnum 1 ds⟩
      (0, a0, p0) =
      .ok ⟨some (a0, p0), (txh ++ inputsJoin ds) ++ zeroedBytes p0,
           (0, a0, p0) :: outputsEnum 1 ds⟩ := by
    simp [step2, zeroSig_of_long h2]
  rw [show ((0, a0, p0) :: []) ++ outputsEnum 1 ds = (0, a0, p0) :: outputsEnum 1 ds
      from rfl]
  rw [loop2_cons_ok hstep2]
  rw [loop2_outputs ds 1 _ (by omega)]
  simp [List.append_assoc]

/-- Phase 1 with no payload-bearing envelope at index 0 fails with the
no-entrance-witness error. -/
theorem buildUnsigned_no_entrance
    {d : List Nat → Except String WitnessArgs} {txh w0 : List Nat}
    {rest : List (List Nat)} {a0 : WitnessArgs} {ds : List WitnessArgs}
    (h0 : d w0 = .ok a0) (h1 : a0.input_type = none)
    (h1' : a0.output_type = none) (h3 : decodeAll d rest = .ok ds) :
    buildUnsigned d txh (w0 :: rest) = .fail "No entrance witness found" := by
  have hstep : step1 d ⟨none, txh, []⟩ (0, w0) = .ok ⟨none, txh, []⟩ := by
    simp [step1, h0, h1, h1']
  rw [buildUnsigned,
    show List.enumFrom 0 (w0 :: rest) = (0, w0) :: List.enumFrom 1 rest from rfl,
    loop1_cons_ok hstep, loop1_tail d rest 1 _ ds (by omega) h3]
  simp only [RunResult.bind_ok, List.nil_append]
  rw [loop2_outputs ds 1 _ (by omega)]
  simp

/-- Phase 1 on an empty witness list fails with the no-entrance-witness
error. -/
theorem buildUnsigned_nil (d : List Nat → Except String WitnessArgs)
    (txh : List Nat) :
    buildUnsigned d txh [] = .fail "No entrance witness found" := rfl

/-- Phase 1 with an input-side entrance payload shorter than 69 bytes
panics on the out-of-bounds zeroing slice. -/
theorem buildUnsigned_input_short
    {d : List Nat → Except String WitnessArgs} {txh w0 : List Nat}
    {rest : List (List Nat)} {a0 : WitnessArgs} {p0 : List Nat}
    (h0 : d w0 = .ok a0) (h1 : a0.input_type = some p0)
    (h2 : p0.length < 69) :
    buildUnsigned d txh (w0 :: rest) = .crash := by
  have hstep : step1 d ⟨none, txh, []⟩ (0, w0) = .crash := by
    simp [step1, h0, h1, zeroSig_of_short h2]
  rw [buildUnsigned,
    show List.enumFrom 0 (w0 :: rest) = (0, w0) :: List.enumFrom 1 rest from rfl,
    loop1_cons_crash hstep]
  rfl

/-- Phase 1 with an output-side entrance payload shorter than 69 bytes
panics on the out-of-bounds zeroing slice in the second loop. -/
theorem buildUnsigned_output_short
    {d : List Nat → Except String WitnessArgs} {txh w0 : List Nat}
    {rest : List (List Nat)} {a0 : WitnessArgs} {p0 : List Nat}
    {ds : List WitnessArgs}
    (h0 : d w0 = .ok a0) (h1 : a0.input_type = none)
    (h1' : a0.output_type = some p0) (h2 : p0.length < 69)
    (h3 : decodeAll d rest = .ok ds) :
    buildUnsigned d txh (w0 :: rest) = .crash := by
  have hstep : step1 d ⟨none, txh, []⟩ (0, w0) =
      .ok ⟨none, txh, [(0, a0, p0)]⟩ := by
    simp [step1, h0, h1, h1']
  rw [buildUnsigned,
    show List.enumFrom 0 (w0 :: rest) = (0, w0) :: List.enumFrom 1 rest from rfl,
    loop1_cons_ok hstep, loop1_tail d rest 1 _ ds (by omega) h3]
  simp only [RunResult.bind_ok]
  have hstep2 : step2 ⟨none, txh ++ inputsJoin ds, (0, a0, p0) :: outputsEnum 1 ds⟩
      (0, a0, p0) = .crash := by
    simp [step2, zeroSig_of_short h2]
  rw [show ((0, a0, p0) :: []) ++ outputsEnum 1 ds = (0, a0, p0) :: outputsEnum 1 ds
      from rfl]
  rw [loop2_cons_crash hstep2]
  rfl

/-- Above index 0, `inputsPartFrom` is the plain concatenation of
input-side payloads. -/
theorem inputsPartFrom_pos (ds : List WitnessArgs) :
    ∀ n, 1 ≤ n → inputsPartFrom n ds = inputsJoin ds := by
  induction ds with
  | nil => intro n _; simp [inputsPartFrom, inputsJoin]
  | cons a rest ih =>
    intro n hn
    have hn0 : n ≠ 0 := by omega
    cases hin : a.input_type with
    | some r =>
      simp [inputsPartFrom, inputsJoin, hin, hn0, ih (n + 1) (by omega)]
    | none =>
      simp [inputsPartFrom, inputsJoin, hin, ih (n + 1) (by omega)]

/-- Above index 0, `outputsPartFrom` is the plain concatenation of
output-side payloads of input-less envelopes. -/
theorem outputsPartFrom_pos (ds : List WitnessArgs) :
    ∀ n, 1 ≤ n → outputsPartFrom n ds = outputsJoin ds := by
  induction ds with
  | nil => intro n _; simp [outputsPartFrom, outputsJoin]
  | cons a rest ih =>
    intro n hn
    have hn0 : n ≠ 0 := by omega
    cases hoo : outputsOnly a with
    | some r =>
      simp [outputsPartFrom, outputsJoin, hoo, hn0, ih (n + 1) (by omega)]
    | none =>
      simp [outputsPartFrom, outputsJoin, hoo, ih (n + 1) (by omega)]

/-- Output of `cexHashFn` always has 32 entries. -/
theorem cexHashFn_length (m : List Nat) : (cexHashFn m).length = 32 := by
  simp [cexHashFn]

/-- C1 counterexample: with an output-side entrance payload at index 0 and
an input-side payload at index 1, the signed digest is the hash of the
message in which the input-side payload comes first, not of the message in
which the zeroed entrance payload immediately follows the transaction
hash. -/
theorem c1_entrance_position_counterexample :
    signedDigest toyDecode cexHashFn cexTxHash [1 :: cexP0, 0 :: [7]] =
      .ok (cexHashFn (cexTxHash ++ ([7] ++ zeroedBytes cexP0))) ∧
    signedDigest toyDecode cexHashFn cexTxHash [1 :: cexP0, 0 :: [7]] ≠
      .ok (cexHashFn (cexTxHash ++ (zeroedBytes cexP0 ++ [7]))) := by
  decide

/-- C1 (amended): the signed digest is the 256-bit hash of the transaction
hash followed by the bucket-ordered payloads with the entrance payload
zeroed in place: an input-side entrance payload comes immediately after
the transaction hash, while an output-side entrance payload comes after
all input-side payloads. -/
theorem c1_digest_bucket_order
    (d : List Nat → Except String WitnessArgs) (hash : List Nat → List Nat)
    (txh w0 : List Nat) (rest : List (List Nat)) (a0 : WitnessArgs)
    (p0 : List Nat) (ds : List WitnessArgs)
    (hh : ∀ m, (hash m).length = 32)
    (h0 : d w0 = .ok a0) (h3 : decodeAll d rest = .ok ds)
    (h2 : 69 ≤ p0.length) :
    (a0.input_type = some p0 →
      signedDigest d hash txh (w0 :: rest) =
        .ok (hash (txh ++ zeroedBytes p0 ++ inputsJoin ds ++ outputsJoin ds))) ∧
    (a0.input_type = none → a0.output_type = some p0 →
      signedDigest d hash txh (w0 :: rest) =
        .ok (hash (txh ++ inputsJoin ds ++ zeroedBytes p0 ++ outputsJoin ds))) := by
  constructor
  · intro h1
    rw [signedDigest, buildUnsigned_input_entrance h0 h1 h2 h3]
    simp [mkDigest, hh]
  · intro h1 h1'
    rw [signedDigest, buildUnsigned_output_entrance h0 h1 h1' h2 h3]
    simp [mkDigest, hh]

/-- C1 witness: the amended claim evaluated on a concrete one-witness
receipt with an input-side entrance. -/
theorem c1_digest_bucket_order_witness :
    signedDigest toyDecode cexHashFn cexTxHash [0 :: cexP0] =
      .ok (cexHashFn (cexTxHash ++ zeroedBytes cexP0 ++ inputsJoin [] ++ outputsJoin [])) :=
  (c1_digest_bucket_order toyDecode cexHashFn cexTxHash (0 :: cexP0) []
    ⟨none, some cexP0, none⟩ cexP0 [] cexHashFn_length rfl rfl (by decide)).1 rfl

/-- C2 counterexample: the message body does not hold the raw index-0
entrance payload; its signature slice is zeroed. -/
theorem c2_raw_body_counterexample :
    unsignedMessage toyDecode cexTxHash [0 :: cexP0] =
      .ok (cexTxHash ++ zeroedBytes cexP0) ∧
    unsignedMessage toyDecode cexTxHash [0 :: cexP0] ≠
      .ok (cexTxHash ++ cexP0) := by
  decide

/-- C2 (amended): on every successful phase 1, the message body after the
transaction hash is the concatenation of the input-side payloads in
ascending witness-index order followed by the output-side payloads in
ascending witness-index order, where the index-0 entrance payload is taken
with its signature slice `[4,69)` zeroed and every other payload raw. -/
theorem c2_body_order
    (d : List Nat → Except String WitnessArgs) (txh : List Nat)
    (ws : List (List Nat)) (ds : List WitnessArgs)
    (u : List Nat) (ea : WitnessArgs) (er : List Nat)
    (hds : decodeAll d ws = .ok ds)
    (hok : buildUnsigned d txh ws = .ok (u, ea, er)) :
    u = txh ++ inputsPartFrom 0 ds ++ outputsPartFrom 0 ds := by
  cases ws with
  | nil =>
    rw [buildUnsigned_nil] at hok
    exact absurd hok (by simp)
  | cons w0 rest =>
    obtain ⟨a0, ds', hdw, hdr, hcons⟩ := decodeAll_cons_ok hds
    subst hcons
    cases hin : a0.input_type with
    | some p0 =>
      by_cases hlen : 69 ≤ p0.length
      · rw [buildUnsigned_input_entrance hdw hin hlen hdr] at hok
        simp only [RunResult.ok.injEq, Prod.mk.injEq] at hok
        obtain ⟨hu, -, -⟩ := hok
        subst hu
        simp [inputsPartFrom, outputsPartFrom, outputsOnly, hin,
          inputsPartFrom_pos ds' 1 (by omega), outputsPartFrom_pos ds' 1 (by omega),
          zeroedBytes, List.append_assoc]
      · rw [buildUnsigned_input_short hdw hin (by omega)] at hok
        exact absurd hok (by simp)
    | none =>
      cases hout : a0.output_type with
      | some p0 =>
        by_cases hlen : 69 ≤ p0.length
        · rw [buildUnsigned_output_entrance hdw hin hout hlen hdr] at hok
          simp only [RunResult.ok.injEq, Prod.mk.injEq] at hok
          obtain ⟨hu, -, -⟩ := hok
          subst hu
          simp [inputsPartFrom, outputsPartFrom, outputsOnly, hin, hout,
            inputsPartFrom_pos ds' 1 (by omega), outputsPartFrom_pos ds' 1 (by omega),
            zeroedBytes, List.append_assoc]
        · rw [buildUnsigned_output_short hdw hin hout (by omega) hdr] at hok
          exact absurd hok (by simp)
      | none =>
        rw [buildUnsigned_no_entrance hdw hin hout hdr] at hok
        exact absurd hok (by simp)

/-- C2 witness: the amended claim evaluated on a concrete one-witness
receipt. -/
theorem c2_body_order_witness :
    cexTxHash ++ zeroedBytes cexP0 =
      cexTxHash ++ inputsPartFrom 0 [⟨none, some cexP0, none⟩]
        ++ outputsPartFrom 0 [⟨none, some cexP0, none⟩] :=
  c2_body_order toyDecode cexTxHash [0 :: cexP0] [⟨none, some cexP0, none⟩]
    (cexTxHash ++ zeroedBytes cexP0) ⟨none, some cexP0, none⟩ cexP0 rfl (by decide)

/-- C5: an envelope with an input-side payload contributes that payload to
the input bucket and is never pushed onto the output bucket (input side
takes priority, whatever the output side holds), and an envelope with
neither optional field leaves the phase-1 state unchanged. -/
theorem c5_bucket_priority
    (d : List Nat → Except String WitnessArgs) (st : P1State) (i : Nat)
    (w : List Nat) (a : WitnessArgs) (hd : d w = .ok a) :
    ((∀ r, a.input_type = some r → i ≠ 0 →
        step1 d st (i, w) = .ok { st with unsigned := st.unsigned ++ r }) ∧
     (∀ r z, a.input_type = some r → i = 0 → zeroSig r = some z →
        step1 d st (i, w) =
          .ok { st with entrance := some (a, r), unsigned := st.unsigned ++ z }) ∧
     (a.input_type = none → a.output_type = none →
        step1 d st (i, w) = .ok st)) := by
  refine ⟨?_, ?_, ?_⟩
  · intro r h1 h2
    simp [step1, hd, h1, h2]
  · intro r z h1 h2 h3
    subst h2
    simp [step1, hd, h1, h3]
  · intro h1 h2
    simp [step1, hd, h1, h2]

/-- C5 witness: a both-fields envelope at a non-zero index contributes its
input-side payload and nothing to the output bucket. -/
theorem c5_bucket_priority_witness :
    step1 cexBothDecode ⟨none, [], []⟩ (1, []) = .ok ⟨none, [] ++ cexPIn, []⟩ :=
  (c5_bucket_priority cexBothDecode ⟨none, [], []⟩ 1 []
    ⟨none, some cexPIn, some cexPOut⟩ rfl).1 cexPIn rfl (by decide)

/-- C7: when all witnesses decode, an index-0 envelope with no optional
payload (or an empty witness list) makes the protocol abort with the
no-entrance-witness error, while an index-0 envelope carrying an optional
payload of in-bounds length makes entrance discovery succeed. -/
theorem c7_entrance_enforcement
    (d : List Nat → Except String WitnessArgs) (txh w0 : List Nat)
    (rest : List (List Nat)) (a0 : WitnessArgs) (ds : List WitnessArgs)
    (h0 : d w0 = .ok a0) (h3 : decodeAll d rest = .ok ds) :
    (buildUnsigned d txh [] = .fail "No entrance witness found") ∧
    (a0.input_type = none → a0.output_type = none →
      buildUnsigned d txh (w0 :: rest) = .fail "No entrance witness found") ∧
    (∀ p0, 69 ≤ p0.length →
      (a0.input_type = some p0 ∨ (a0.input_type = none ∧ a0.output_type = some p0)) →
      ∃ u, buildUnsigned d txh (w0 :: rest) = .ok (u, a0, p0)) := by
  refine ⟨buildUnsigned_nil d txh, ?_, ?_⟩
  · intro h1 h2
    exact buildUnsigned_no_entrance h0 h1 h2 h3
  · intro p0 hlen hcase
    rcases hcase with h1 | ⟨h1, h2⟩
    · exact ⟨_, buildUnsigned_input_entrance h0 h1 hlen h3⟩
    · exact ⟨_, buildUnsigned_output_entrance h0 h1 h2 hlen h3⟩

/-- C7 witness: a single payload-less envelope yields the
no-entrance-witness error. -/
theorem c7_entrance_enforcement_witness :
    buildUnsigned toyDecode cexTxHash [[]] = .fail "No entrance witness found" :=
  (c7_entrance_enforcement toyDecode cexTxHash [] [] ⟨none, none, none⟩ []
    rfl rfl).2.1 rfl rfl

/-- C10: the `[4,69)` slice operations are in bounds and cannot fail on
payloads of at least 69 bytes, while an index-0 optional payload shorter
than 69 bytes makes the signing run panic (`crash`) rather than return an
error. -/
theorem c10_slice_bounds
    (d : List Nat → Except String WitnessArgs) (txh w0 : List Nat)
    (rest : List (List Nat)) (a0 : WitnessArgs) (p0 q0 : List Nat)
    (ds : List WitnessArgs) (h0 : d w0 = .ok a0) :
    ((69 ≤ p0.length → zeroSig p0 = some (zeroedBytes p0)) ∧
     (∀ s, s.length = 65 → 69 ≤ p0.length →
        writeSig p0 s = some (p0.take 4 ++ s ++ p0.drop 69))) ∧
    (a0.input_type = some p0 → p0.length < 69 →
      buildUnsigned d txh (w0 :: rest) = .crash) ∧
    (a0.input_type = none → a0.output_type = some q0 → q0.length < 69 →
      decodeAll d rest = .ok ds →
      buildUnsigned d txh (w0 :: rest) = .crash) := by
  refine ⟨⟨fun h => zeroSig_of_long h, ?_⟩, ?_, ?_⟩
  · intro s hs hl
    rw [writeSig, if_pos ⟨by omega, hs⟩]
  · intro h1 h2
    exact buildUnsigned_input_short h0 h1 h2
  · intro h1 h2 h3 h4
    exact buildUnsigned_output_short h0 h1 h2 h3 h4

/-- C10 witness: a 2-byte input-side payload at index 0 panics the run. -/
theorem c10_slice_bounds_witness :
    buildUnsigned toyDecode cexTxHash [0 :: [5, 5]] = .crash :=
  (c10_slice_bounds toyDecode cexTxHash (0 :: [5, 5]) []
    ⟨none, some [5, 5], none⟩ [5, 5] [] [] rfl).2.1 rfl (by decide)

/-- C3 counterexample: when the index-0 envelope carries both optional
fields, the entrance payload is read from the input side but the signed
payload is written to the output side, overwriting it; the input-side
field keeps the unsigned payload. -/
theorem c3_field_counterexample :
    signTxCore cexBothDecode cexHashFn cexSign cexTxHash [[]] =
      .ok ⟨none, some cexPIn,
           some (cexPIn.take 4 ++ (List.replicate 64 3 ++ [1]) ++ cexPIn.drop 69)⟩ ∧
    signTxCore cexBothDecode cexHashFn cexSign cexTxHash [[]] ≠
      .ok ⟨none, some (cexPIn.take 4 ++ (List.replicate 64 3 ++ [1]) ++ cexPIn.drop 69),
           some cexPOut⟩ := by
  decide

/-- C3 (amended): the signed payload is wrapped into the output-side field
whenever the entrance envelope carries an output-side field, and into the
input-side field otherwise; the primary field is always preserved.  When
the envelope carries exactly one optional field this is the field the
payload was read from; when it carries both, the payload is read from the
input side but written to the output side, and the input-side field keeps
the unsigned payload. -/
theorem c3_rewrap_rule
    (d : List Nat → Except String WitnessArgs) (hash : List Nat → List Nat)
    (sign : List Nat → List Nat × Nat) (txh : List Nat) (ws : List (List Nat))
    (u : List Nat) (a0 : WitnessArgs) (p0 : List Nat)
    (hb : buildUnsigned d txh ws = .ok (u, a0, p0))
    (hh : (hash u).length = 32)
    (hs : (sigBytes sign (hash u)).length = 65)
    (hp : 69 ≤ p0.length) :
    signTxCore d hash sign txh ws =
      .ok (if a0.output_type.isSome
           then { a0 with output_type := some (p0.take 4 ++ sigBytes sign (hash u) ++ p0.drop 69) }
           else { a0 with input_type := some (p0.take 4 ++ sigBytes sign (hash u) ++ p0.drop 69) }) := by
  rw [signTxCore, hb, RunResult.bind_ok,
    show mkDigest hash u = .ok (hash u) from by rw [mkDigest, if_pos hh],
    RunResult.bind_ok,
    show writeSig p0 (sigBytes sign (hash u)) =
        some (p0.take 4 ++ sigBytes sign (hash u) ++ p0.drop 69)
      from by rw [writeSig, if_pos ⟨by omega, hs⟩]]

/-- C3 witness: the amended claim evaluated on the concrete both-fields
receipt. -/
theorem c3_rewrap_rule_witness :
    signTxCore cexBothDecode cexHashFn cexSign cexTxHash [[]] =
      .ok ⟨none, some cexPIn,
           some (cexPIn.take 4 ++ (List.replicate 64 3 ++ [1]) ++ cexPIn.drop 69)⟩ :=
  (c3_rewrap_rule cexBothDecode cexHashFn cexSign cexTxHash [[]]
    (cexTxHash ++ zeroedBytes cexPIn) ⟨none, some cexPIn, some cexPOut⟩ cexPIn
    (by decide) (by decide) (by decide) (by decide)).trans (by decide)

/-- Setting index 0 of a list leaves every other index unchanged. -/
theorem get?_set_zero {α : Type} (l : List α) (a : α) (i : Nat) (h : i ≠ 0) :
    (l.set 0 a).get? i = l.get? i := by
  cases l <;> cases i <;> simp_all

/-- C4: on a successful signing run only witness 0 is replaced: the
rebuilt payload carries the 65-byte signature (64-byte compact form
followed by the recovery-id byte) in bytes `[4,69)` and the original,
unzeroed entrance bytes everywhere else, and every witness at index 1 and
above is byte-identical to its input value. -/
theorem c4_frame_effect
    (d : List Nat → Except String WitnessArgs) (enc : WitnessArgs → List Nat)
    (hash : List Nat → List Nat) (sign : List Nat → List Nat × Nat)
    (txh : List Nat) (ws : List (List Nat)) (u : List Nat) (a0 : WitnessArgs)
    (p0 c : List Nat) (v : Nat)
    (hb : buildUnsigned d txh ws = .ok (u, a0, p0))
    (hh : (hash u).length = 32)
    (hsg : sign (hash u) = (c, v))
    (hc : c.length = 64)
    (hp : 69 ≤ p0.length) :
    ∃ w q,
      signTxRun d enc hash sign txh ws = (.ok (), ws.set 0 (enc w)) ∧
      (∀ i, i ≠ 0 → (ws.set 0 (enc w)).get? i = ws.get? i) ∧
      (w = { a0 with output_type := some q } ∨ w = { a0 with input_type := some q }) ∧
      q = p0.take 4 ++ (c ++ [v % 256]) ++ p0.drop 69 ∧
      q.take 4 = p0.take 4 ∧ q.drop 69 = p0.drop 69 ∧
      (q.drop 4).take 65 = c ++ [v % 256] ∧
      (c ++ [v % 256]).length = 65 := by
  have hq : writeSig p0 (c ++ [v % 256]) =
      some (p0.take 4 ++ (c ++ [v % 256]) ++ p0.drop 69) := by
    rw [writeSig, if_pos ⟨by omega, by simp [hc]⟩]
  have hcore : signTxCore d hash sign txh ws =
      .ok (if a0.output_type.isSome
           then { a0 with output_type := some (p0.take 4 ++ (c ++ [v % 256]) ++ p0.drop 69) }
           else { a0 with input_type := some (p0.take 4 ++ (c ++ [v % 256]) ++ p0.drop 69) }) := by
    rw [signTxCore, hb, RunResult.bind_ok,
      show mkDigest hash u = .ok (hash u) from by rw [mkDigest, if_pos hh]]
    rw [RunResult.bind_ok,
      show sigBytes sign (hash u) = c ++ [v % 256] from by rw [sigBytes, hsg], hq]
  refine ⟨(if a0.output_type.isSome
           then { a0 with output_type := some (p0.take 4 ++ (c ++ [v % 256]) ++ p0.drop 69) }
           else { a0 with input_type := some (p0.take 4 ++ (c ++ [v % 256]) ++ p0.drop 69) }),
         p0.take 4 ++ (c ++ [v % 256]) ++ p0.drop 69, ?_, ?_, ?_, rfl, ?_, ?_, ?_,
         by simp [hc]⟩
  · rw [signTxRun, hcore]
  · intro i hi
    exact get?_set_zero ws _ i hi
  · cases hiso : a0.output_type.isSome
    · right
      simp [hiso]
    · left
      simp [hiso]
  · rw [List.append_assoc]
    exact List.take_left' (by rw [List.length_take]; omega)
  · exact List.drop_left' (by simp [hc]; omega)
  · rw [List.append_assoc,
      List.drop_left' (show (p0.take 4).length = 4 by rw [List.length_take]; omega)]
    exact List.take_left' (by simp [hc])

/-- C4 witness: the frame effect evaluated on a concrete one-witness
receipt with an input-side entrance. -/
theorem c4_frame_effect_witness :
    ∃ w q,
      signTxRun toyDecode toyEnc cexHashFn cexSign cexTxHash [0 :: cexP0] =
        (.ok (), ([0 :: cexP0]).set 0 (toyEnc w)) ∧
      (∀ i, i ≠ 0 →
        (([0 :: cexP0]).set 0 (toyEnc w)).get? i = ([0 :: cexP0]).get? i) ∧
      (w = { cexA0 with output_type := some q } ∨
       w = { cexA0 with input_type := some q }) ∧
      q = cexP0.take 4 ++ (List.replicate 64 3 ++ [1 % 256]) ++ cexP0.drop 69 ∧
      q.take 4 = cexP0.take 4 ∧ q.drop 69 = cexP0.drop 69 ∧
      (q.drop 4).take 65 = List.replicate 64 3 ++ [1 % 256] ∧
      (List.replicate 64 3 ++ [1 % 256]).length = 65 :=
  c4_frame_effect toyDecode toyEnc cexHashFn cexSign cexTxHash [0 :: cexP0]
    (cexTxHash ++ zeroedBytes cexP0) cexA0 cexP0
    (List.replicate 64 3) 1 (by decide) (by decide) rfl (by decide) (by decide)

/-- C6: two receipts identical except for the bytes `[4,69)` of the
index-0 entrance payload produce the same unsigned message and the same
signed digest. -/
theorem c6_signature_independence
    (d : List Nat → Except String WitnessArgs) (hash : List Nat → List Nat)
    (txh w0 w0' : List Nat) (rest : List (List Nat)) (a0 a0' : WitnessArgs)
    (p p' : List Nat) (ds : List WitnessArgs)
    (h0 : d w0 = .ok a0) (h0' : d w0' = .ok a0')
    (hrest : decodeAll d rest = .ok ds)
    (hlen : 69 ≤ p.length) (hlen' : p.length = p'.length)
    (hpre : p.take 4 = p'.take 4) (hsuf : p.drop 69 = p'.drop 69) :
    ((a0.input_type = some p ∧ a0'.input_type = some p') →
      unsignedMessage d txh (w0 :: rest) = unsignedMessage d txh (w0' :: rest) ∧
      signedDigest d hash txh (w0 :: rest) = signedDigest d hash txh (w0' :: rest)) ∧
    ((a0.input_type = none ∧ a0.output_type = some p ∧
      a0'.input_type = none ∧ a0'.output_type = some p') →
      unsignedMessage d txh (w0 :: rest) = unsignedMessage d txh (w0' :: rest) ∧
      signedDigest d hash txh (w0 :: rest) = signedDigest d hash txh (w0' :: rest)) := by
  have hz : zeroedBytes p = zeroedBytes p' := by
    rw [zeroedBytes, zeroedBytes, hpre, hsuf]
  have hlen2 : 69 ≤ p'.length := by omega
  constructor
  · rintro ⟨h1, h1'⟩
    rw [unsignedMessage, unsignedMessage, signedDigest, signedDigest,
      buildUnsigned_input_entrance h0 h1 hlen hrest,
      buildUnsigned_input_entrance h0' h1' hlen2 hrest, hz]
    exact ⟨rfl, rfl⟩
  · rintro ⟨h1, h2, h1', h2'⟩
    rw [unsignedMessage, unsignedMessage, signedDigest, signedDigest,
      buildUnsigned_output_entrance h0 h1 h2 hlen hrest,
      buildUnsigned_output_entrance h0' h1' h2' hlen2 hrest, hz]
    exact ⟨rfl, rfl⟩

/-- C6 witness: a concrete receipt and its signature-slice-zeroed variant
produce the same message and digest. -/
theorem c6_signature_independence_witness :
    unsignedMessage toyDecode cexTxHash [0 :: cexP0] =
      unsignedMessage toyDecode cexTxHash [0 :: zeroedBytes cexP0] ∧
    signedDigest toyDecode cexHashFn cexTxHash [0 :: cexP0] =
      signedDigest toyDecode cexHashFn cexTxHash [0 :: zeroedBytes cexP0] :=
  (c6_signature_independence toyDecode cexHashFn cexTxHash (0 :: cexP0)
    (0 :: zeroedBytes cexP0) [] ⟨none, some cexP0, none⟩
    ⟨none, some (zeroedBytes cexP0), none⟩ cexP0 (zeroedBytes cexP0) []
    rfl rfl rfl (by decide) (by decide) (by decide) (by decide)).1 ⟨rfl, rfl⟩

/-- C8: a signing run that does not succeed leaves the receipt's witness
list untouched; the list is replaced only on success. -/
theorem c8_no_mutation_on_failure
    (d : List Nat → Except String WitnessArgs) (enc : WitnessArgs → List Nat)
    (hash : List Nat → List Nat) (sign : List Nat → List Nat × Nat)
    (txh : List Nat) (ws : List (List Nat))
    (h : (signTxRun d enc hash sign txh ws).1 ≠ .ok ()) :
    (signTxRun d enc hash sign txh ws).2 = ws := by
  cases hc : signTxCore d hash sign txh ws with
  | crash => rw [signTxRun, hc]
  | fail e => rw [signTxRun, hc]
  | ok w =>
    exfalso
    apply h
    rw [signTxRun, hc]

/-- C8 witness: a receipt whose only witness fails to decode is returned
unmodified. -/
theorem c8_no_mutation_on_failure_witness :
    (signTxRun toyDecode toyEnc cexHashFn cexSign cexTxHash [[5]]).2 = [[5]] :=
  c8_no_mutation_on_failure toyDecode toyEnc cexHashFn cexSign cexTxHash [[5]]
    (by decide)

/-- C9: `build-tx` signature handling: an absent signature argument yields
65 zero bytes, a 65-byte signature is accepted unchanged, any other
decoded length is rejected with the exact error message, and every
accepted signature has length 65. -/
theorem c9_signature_length (data : List Nat) :
    buildTxSignature none = .ok (List.replicate 65 0) ∧
    (data.length = 65 → buildTxSignature (some data) = .ok data) ∧
    (data.length ≠ 65 →
      buildTxSignature (some data) =
        .error ("Invalid data length for signature: " ++ toString data.length)) ∧
    (∀ s, buildTxSignature (some data) = .ok s → s.length = 65) := by
  refine ⟨rfl, ?_, ?_, ?_⟩
  · intro h
    simp [buildTxSignature, h]
  · intro h
    simp [buildTxSignature, h]
  · intro s hs
    by_cases h : data.length = 65
    · rw [buildTxSignature, if_neg (by omega)] at hs
      injection hs with h'
      rw [← h']
      exact h
    · rw [buildTxSignature, if_pos h] at hs
      exact absurd hs (by simp)

/-- C9 witness: a 64-byte signature is rejected with the exact message and
the absent argument yields the zero signature. -/
theorem c9_signature_length_witness :
    buildTxSignature (some (List.replicate 64 1)) =
      .error ("Invalid data length for signature: "
        ++ toString (List.replicate 64 1).length) ∧
    buildTxSignature none = .ok (List.replicate 65 0) :=
  ⟨(c9_signature_length (List.replicate 64 1)).2.2.1 (by decide),
   (c9_signature_length (List.replicate 64 1)).1⟩

end Polyjuice
